import Mathlib

/-!
# Signing-review controller of specter-diy (`src/main.cpp`)

A shallow embedding of the request dispatcher and the transaction review of
`src/main.cpp`, and the properties of its specification checked against it.

Conventions of the embedding.

* A C string is a `List Char` (the terminating NUL is implicit, so a C string
  never contains one).
* `uint64_t` values are natural numbers; every addition and subtraction the
  source does on them is followed by an explicit `% 2 ^ 64`.
* The globals of `main.cpp` (`mnemonic`, `password`, `keystore`, `network`,
  `in_action`, `psbt`) are the fields of `State`; every function of the source
  that touches them is a function on `State`.
* Calls into the display, the host link and the keystore that have an effect
  are recorded, in call order, in `State.trace`.  The `logit` diagnostics are
  not recorded.
* The headers of the collaborators (`keystore.h`, `gui.h`, `host.h`,
  `networks.h`, libwally) are not part of the sources; what `main.cpp` uses of
  them is gathered in the structure `World`, over which every result is
  universally quantified.
* Where C gives no meaning to an execution (a write past the end of a buffer,
  a read of an uninitialised buffer) the embedding stops and raises
  `State.ub`; no property is claimed about such executions.
-/

namespace Specter

/-- A C string, without its terminating NUL. -/
abbrev CStr := List Char

/-- Number of values of a `uint64_t`. -/
def U64 : Nat := 2 ^ 64

/-! ## Data model -/

/-- The fields of `struct wally_tx_output` read by `show_psbt`. -/
structure wally_tx_output where
  satoshi : Nat
  script : List Nat
deriving DecidableEq, Repr

/-- The fields of `struct wally_tx` read by `show_psbt`: `outputs` holds
`num_outputs` entries. -/
structure wally_tx where
  outputs : List wally_tx_output
deriving DecidableEq, Repr

/-- Field `num_outputs` of a `struct wally_tx`. -/
def wally_tx.num_outputs (t : wally_tx) : Nat := t.outputs.length

/-- The field of `struct wally_psbt_input` read by `show_psbt`; `none` is a
null `witness_utxo` pointer. -/
structure wally_psbt_input where
  witness_utxo : Option wally_tx_output
deriving DecidableEq, Repr

/-- The fields of `struct wally_psbt` read by `show_psbt`.  `inputs` holds
`num_inputs` entries; `num_outputs` is the psbt's own count of output maps,
a field separate from `tx->num_outputs`. -/
structure wally_psbt where
  tx : wally_tx
  inputs : List wally_psbt_input
  num_outputs : Nat
deriving DecidableEq, Repr

/-- Field `num_inputs` of a `struct wally_psbt`. -/
def wally_psbt.num_inputs (p : wally_psbt) : Nat := p.inputs.length

/-- The invariant libwally keeps on every psbt it parses: the psbt carries one
output map per output of its transaction. -/
def wally_psbt.wellFormed (p : wally_psbt) : Prop :=
  p.num_outputs = p.tx.num_outputs

instance (p : wally_psbt) : Decidable p.wellFormed := by
  unfold wally_psbt.wellFormed; infer_instance

/-- The fields of `network_t` used by `main.cpp`. -/
structure network_t where
  bech32 : CStr
  p2sh : Nat
  p2pkh : Nat
  bip32 : Nat
deriving DecidableEq, Repr

/-- The part of `keystore_t` visible to `main.cpp`: the fingerprint string, and
the secrets the keystore was initialised from (used only by the keystore's own
functions). -/
structure keystore_t where
  fingerprint : CStr
  mnemonic : Option CStr
  password : Option CStr
deriving DecidableEq, Repr

/-- One display line of the review (`txout_t` of `gui.h`); a null `address` or
`warning` pointer is `none`. -/
structure txout_t where
  address : Option CStr
  amount : Nat
  is_change : Bool
  warning : Option CStr
deriving DecidableEq, Repr

/-- The script categories `show_psbt` switches on (`WALLY_SCRIPT_TYPE_*`);
`OTHER` stands for every value without a `case`. -/
inductive script_type where
  | P2WPKH | P2WSH | P2SH | P2PKH | OTHER
deriving DecidableEq, Repr

/-- The two address formats of `keystore_get_addr`. -/
inductive addr_format where
  | KEYSTORE_BECH32_ADDRESS | KEYSTORE_BASE58_ADDRESS
deriving DecidableEq, Repr

/-- The values `gui_get_action` can return that `process_action` and `update`
distinguish (`GUI_*` of `gui.h`); `UNRECOGNIZED` stands for every value that
reaches the `default` label. -/
inductive gui_action where
  | GUI_NO_ACTION | GUI_SECURE_SHUTDOWN | GUI_GENERATE_KEY | GUI_PROCESS_MNEMONIC
  | GUI_PROCESS_PASSWORD | GUI_PROCESS_NETWORK | GUI_SHOW_XPUB | GUI_VERIFY_ADDRESS
  | GUI_SIGN_PSBT | GUI_PSBT_CONFIRMED | GUI_BACK | UNRECOGNIZED
deriving DecidableEq, Repr

/-- `#define NO_ACTION 0`. -/
def NO_ACTION : Int := 0
/-- `#define VERIFY_ADDRESS 1`. -/
def VERIFY_ADDRESS : Int := 1
/-- `#define SIGN_PSBT 2`. -/
def SIGN_PSBT : Int := 2

/-- The observable calls of `main.cpp` into its collaborators, with their
arguments.  `process_data_called` is a ghost event: it records the entry into
`process_data` from `update`. -/
inductive Event where
  | show_err (msg : String)
  | gui_show_psbt (out_amount change_amount fee : Nat) (num_outputs : Nat)
      (outputs : List txout_t)
  | keystore_get_addr (derivation : CStr) (network : network_t) (format : addr_format)
  | gui_show_addresses (buf bech32_addr base58_addr : CStr)
  | keystore_sign_psbt (psbt : Option wally_psbt)
  | printf (line : CStr)
  | gui_show_signed_psbt (output : CStr)
  | gui_show_init_screen
  | gui_show_main_screen
  | gui_show_mnemonic (mnemonic : Option CStr)
  | gui_get_password
  | gui_set_network (val : Int)
  | gui_set_default_xpubs (single multisig : CStr)
  | gui_show_xpub (fingerprint str : CStr) (xpub : Option CStr)
  | gui_clear_action
  | gui_calibrate
  | host_request_data
  | host_flush
  | wally_cleanup
  | process_data_called (action : Int) (buf : CStr)
deriving DecidableEq, Repr

/-- The collaborators of `main.cpp`: constants and functions declared in headers
that are not part of the sources.  A function that returns an error code and
an output pointer is an `Option` (`none`: error). -/
structure World where
  KEYSTORE_PSBTERR_CANNOT_SIGN : Int
  KEYSTORE_PSBTERR_MIXED_INPUTS : Int
  KEYSTORE_PSBTERR_WRONG_FIELDS : Int
  KEYSTORE_PSBTERR_UNSUPPORTED_POLICY : Int
  SPECTER_MNEMONIC_WORDS : Int
  Testnet : network_t
  networks : List network_t
  keystore_init : Option CStr → Option CStr → keystore_t
  keystore_check_psbt : keystore_t → wally_psbt → Int
  keystore_output_is_change : keystore_t → wally_psbt → Nat → Bool × Option CStr
  keystore_get_addr : keystore_t → CStr → network_t → addr_format → Option CStr
  keystore_get_xpub : keystore_t → CStr → network_t → Option CStr
  keystore_sign_psbt : keystore_t → Option wally_psbt → Option CStr
  wally_psbt_from_base64 : CStr → Option wally_psbt
  wally_scriptpubkey_get_type : List Nat → script_type
  wally_addr_segwit_from_bytes : List Nat → CStr → Option CStr
  wally_base58_from_bytes : List Nat → Option CStr
  bip39_mnemonic_from_bytes : List Nat → Option CStr
  bip39_mnemonic_validate : CStr → Bool

/-- `NETWORKS_NUM`: the length of the `networks` table. -/
def World.NETWORKS_NUM (W : World) : Int := W.networks.length

/-- Contract of libwally's parser used by the dispatcher: every psbt it returns
satisfies `wally_psbt.wellFormed`. -/
def World.parser_ok (W : World) : Prop :=
  ∀ b p, W.wally_psbt_from_base64 b = some p → p.wellFormed

/-- The globals of `main.cpp`, the trace of calls made so far, and two flags:
`halted` (`exit(0)` was called) and `ub` (an execution C gives no meaning
to). -/
structure State where
  mnemonic : Option CStr
  password : Option CStr
  keystore : keystore_t
  network : network_t
  in_action : Int
  psbt : Option wally_psbt
  trace : List Event
  halted : Bool
  ub : Bool
deriving DecidableEq, Repr

/-- `show_err(msg)`. -/
def show_err (msg : String) (s : State) : State :=
  { s with trace := s.trace ++ [Event.show_err msg] }

/-- Appends one call to the trace. -/
def emit (e : Event) (s : State) : State :=
  { s with trace := s.trace ++ [e] }

/-! ## `show_psbt` -/

/-- The first loop of `show_psbt` (lines 119-125), started with the running
total `in_amount`: `none` when an input without `witness_utxo` is met, else
the final `in_amount`. -/
def sum_inputs : List wally_psbt_input → Nat → Option Nat
  | [], in_amount => some in_amount
  | inp :: rest, in_amount =>
    match inp.witness_utxo with
    | none => none
    | some utxo => sum_inputs rest ((in_amount + utxo.satoshi) % U64)

/-- The address string of one output (lines 131-155); `bytes[0]` is a
`uint8_t`. -/
def output_address (W : World) (network : network_t) (o : wally_tx_output) : CStr :=
  let addr : Option CStr :=
    match W.wally_scriptpubkey_get_type o.script with
    | script_type.P2WPKH => W.wally_addr_segwit_from_bytes o.script network.bech32
    | script_type.P2WSH => W.wally_addr_segwit_from_bytes o.script network.bech32
    | script_type.P2SH =>
      W.wally_base58_from_bytes (network.p2sh % 256 :: (o.script.drop 2).take 20)
    | script_type.P2PKH =>
      W.wally_base58_from_bytes (network.p2pkh % 256 :: (o.script.drop 3).take 20)
    | script_type.OTHER => none
  match addr with
  | some a => a
  | none => "...custom script...".toList

/-- The entry `outputs[i]` written by one iteration of the second loop (lines
156-160). -/
def output_entry (W : World) (ks : keystore_t) (network : network_t) (p : wally_psbt)
    (i : Nat) (o : wally_tx_output) : txout_t :=
  let r := W.keystore_output_is_change ks p i
  { address := some (output_address W network o)
    amount := o.satoshi
    is_change := r.1
    warning := r.2 }

/-- The second loop of `show_psbt` (lines 130-163) over the outputs that remain,
started at index `i` with running total `out_amount`: the entries written, in
order, and the final `out_amount`. -/
def fill_outputs (W : World) (ks : keystore_t) (network : network_t) (p : wally_psbt) :
    List wally_tx_output → Nat → Nat → List txout_t × Nat
  | [], _, out_amount => ([], out_amount)
  | o :: rest, i, out_amount =>
    let r := fill_outputs W ks network p rest (i + 1) ((out_amount + o.satoshi) % U64)
    (output_entry W ks network p i o :: r.1, r.2)

/-- An entry of the `calloc`ed array that was never written. -/
def zero_txout : txout_t :=
  { address := none, amount := 0, is_change := false, warning := none }

/-- The function `show_psbt` (lines 90-176): the return value and the state
after.  The array `outputs` has `psbt->num_outputs` zeroed entries, the loop
writes `psbt->tx->num_outputs` of them; writing more entries than were
allocated has no meaning in C. -/
def show_psbt (W : World) (p : wally_psbt) (s : State) : Int × State :=
  let res := W.keystore_check_psbt s.keystore p
  if res ≠ 0 then
    if Int.land res W.KEYSTORE_PSBTERR_CANNOT_SIGN ≠ 0 then
      (-1, show_err "Can't sign the transaction" s)
    else if Int.land res W.KEYSTORE_PSBTERR_MIXED_INPUTS ≠ 0 then
      (-1, show_err "Mixed inputs are not supported yet" s)
    else if Int.land res W.KEYSTORE_PSBTERR_WRONG_FIELDS ≠ 0 then
      (-1, show_err "Something is wrong with transaction fields" s)
    else if Int.land res W.KEYSTORE_PSBTERR_UNSUPPORTED_POLICY ≠ 0 then
      (-1, show_err "Script policy is not supported" s)
    else
      (-1, show_err "Something is wrong with transaction" s)
  else
    let change_amount : Nat := 0
    match sum_inputs p.inputs 0 with
    | none =>
      (-1, show_err "Unsupported legacy transaction or missing prevout information" s)
    | some in_amount =>
      if p.num_outputs < p.tx.num_outputs then
        (0, { s with ub := true })
      else
        let r := fill_outputs W s.keystore s.network p p.tx.outputs 0 0
        let outputs := r.1 ++ List.replicate (p.num_outputs - p.tx.num_outputs) zero_txout
        let out_amount := r.2
        let fee := (in_amount + U64 - out_amount) % U64
        (0, emit (Event.gui_show_psbt out_amount change_amount fee p.num_outputs outputs) s)

/-! ## The host payload of an address verification -/

/-- `isspace` of the C locale: space, tab, line feed, vertical tab, form feed,
carriage return. -/
def isspace (c : Char) : Bool :=
  c == Char.ofNat 32 || c == Char.ofNat 9 || c == Char.ofNat 10 || c == Char.ofNat 11 ||
  c == Char.ofNat 12 || c == Char.ofNat 13

/-- Outcome of matching the ordinary characters of a format against the
input. -/
inductive lit_match where
  | ok (rest : CStr)
  | mismatch
  | eof
deriving DecidableEq, Repr

/-- Matches the ordinary (non-space) characters `lit` of a `scanf` format
against the head of the input. -/
def match_literal : CStr → CStr → lit_match
  | [], input => lit_match.ok input
  | _ :: _, [] => lit_match.eof
  | c :: lit, d :: input => if c = d then match_literal lit input else lit_match.mismatch

/-- A white-space directive of a `scanf` format: skips all leading white
space. -/
def skip_space (input : CStr) : CStr := input.dropWhile isspace

/-- The conversion `%s`: skips leading white space, then reads the longest run
of non-space characters; returns the run and the rest of the input. -/
def scan_s (input : CStr) : CStr × CStr :=
  let t := skip_space input
  (t.takeWhile (fun c => !isspace c), t.dropWhile (fun c => !isspace c))

/-- What `sscanf` leaves behind: its return value and, for each of the three
buffers, the string stored in it (`none`: the buffer was not written). -/
structure scan_result where
  res : Int
  address : Option CStr
  type : Option CStr
  der : Option CStr
deriving DecidableEq, Repr

/-- The call `sscanf((char *)buf, "address=%s\ntype=%s\n%s", address, type, der)`
of line 300.  The return value is the number of conversions stored, or `EOF`
(-1) when the input ends before the first one. -/
def sscanf_address (buf : CStr) : scan_result :=
  match match_literal "address=".toList buf with
  | lit_match.eof => ⟨-1, none, none, none⟩
  | lit_match.mismatch => ⟨0, none, none, none⟩
  | lit_match.ok r1 =>
    let a := scan_s r1
    if a.1 = [] then ⟨-1, none, none, none⟩
    else
      match match_literal "type=".toList (skip_space a.2) with
      | lit_match.ok r3 =>
        let t := scan_s r3
        if t.1 = [] then ⟨1, some a.1, none, none⟩
        else
          let d := scan_s (skip_space t.2)
          if d.1 = [] then ⟨2, some a.1, some t.1, none⟩
          else ⟨3, some a.1, some t.1, some d.1⟩
      | _ => ⟨1, some a.1, none, none⟩

/-- Whether a string and its terminator fit in a buffer of `size` chars, for a
buffer that was written. -/
def fits (size : Nat) : Option CStr → Bool
  | none => true
  | some str => decide (str.length < size)

/-- Whether `memcmp(a, fingerprint, 8) != 0`.  Exact as soon as one of the two
strings has at least 8 characters: a shorter one then differs from it at its
terminator. -/
def fingerprint_differs (a fingerprint : CStr) : Bool :=
  a.take 8 != fingerprint.take 8

/-- The two `keystore_get_addr` calls and the display of lines 319-333, for the
derivation path chosen before. -/
def derive_and_show (W : World) (buf derivation : CStr) (s : State) : State :=
  let s1 := emit (Event.keystore_get_addr derivation s.network
    addr_format.KEYSTORE_BECH32_ADDRESS) s
  match W.keystore_get_addr s.keystore derivation s.network
      addr_format.KEYSTORE_BECH32_ADDRESS with
  | none => show_err "failed to derive address" s1
  | some bech32_addr =>
    let s2 := emit (Event.keystore_get_addr derivation s.network
      addr_format.KEYSTORE_BASE58_ADDRESS) s1
    match W.keystore_get_addr s.keystore derivation s.network
        addr_format.KEYSTORE_BASE58_ADDRESS with
    | none => show_err "failed to derive address" s2
    | some base58_addr => emit (Event.gui_show_addresses buf bech32_addr base58_addr) s2

/-- The `VERIFY_ADDRESS` case of `process_data` (lines 294-335).  The buffers
are `address[100]`, `type[10]`, `der[100]`.  When `sscanf` stores one or two
conversions only, line 302 reads `der` uninitialised; `der+9` and `buf+9`
past the terminator have no meaning either. -/
def process_verify_address (W : World) (buf : CStr) (s : State) : State :=
  let sc := sscanf_address buf
  if !(fits 100 sc.address && fits 10 sc.type && fits 100 sc.der) then
    { s with ub := true }
  else if sc.res > 0 then
    match sc.address, sc.der with
    | some address, some der =>
      if fingerprint_differs der s.keystore.fingerprint then
        show_err "Wrong fingerprint" s
      else if der.length < 9 then { s with ub := true }
      else derive_and_show W buf (der.drop 9 ++ address.drop 1) s
    | _, _ => { s with ub := true }
  else
    if buf.take 2 != "m/".toList then
      if fingerprint_differs buf s.keystore.fingerprint then
        show_err "Wrong fingerprint" s
      else if buf.length < 9 then { s with ub := true }
      else derive_and_show W buf (buf.drop 9) s
    else
      derive_and_show W buf buf s

/-- The `SIGN_PSBT` case of `process_data` (lines 336-354).  On a parse error
libwally leaves the output pointer null. -/
def process_sign_psbt (W : World) (buf : CStr) (s : State) : State :=
  let s1 := { s with psbt := none }
  match W.wally_psbt_from_base64 buf with
  | none => show_err "failed to parse psbt transaction" s1
  | some p =>
    let r := show_psbt W p { s1 with psbt := some p }
    if r.1 ≠ 0 then { r.2 with psbt := none } else r.2

/-- The function `process_data` (lines 289-356); a value of `action` without a
`case` falls through the `switch`. -/
def process_data (W : World) (action : Int) (buf : CStr) (s : State) : State :=
  if action = VERIFY_ADDRESS then process_verify_address W buf s
  else if action = SIGN_PSBT then process_sign_psbt W buf s
  else s

/-! ## Operator actions and the tick -/

/-- What one tick reads from its surroundings: the pending display action with
the string and the value of the display, the bytes of the entropy source, the
host data (its length as `host_data_available` reports it, and the buffer),
and the user button. -/
structure TickInput where
  action : gui_action
  gui_str : CStr
  gui_value : Int
  rng : Nat → List Nat
  host_len : Nat
  host_buf : CStr
  btn : Bool

/-- The function `generate_mnemonic` (lines 52-59). -/
def generate_mnemonic (W : World) (rng : Nat → List Nat) (n : Nat) (s : State) : State :=
  { s with mnemonic := W.bip39_mnemonic_from_bytes (rng n) }

/-- The function `sstrcopy` (lines 62-71): the new content of `*output`.  The
wipes of the old content and of `input` leave no trace in the model. -/
def sstrcopy (input : CStr) (_output : Option CStr) : Option CStr := some input

/-- The function `init_keys` (lines 74-77). -/
def init_keys (W : World) (mnemonic password : Option CStr) : keystore_t :=
  W.keystore_init mnemonic password

/-- The function `set_default_xpubs` (lines 80-87); both strings are printed
into buffers of 20 chars. -/
def set_default_xpubs (s : State) : State :=
  let single := "m/84h/".toList ++ Nat.toDigits 10 s.network.bip32 ++ "h/0h".toList
  let multisig := "m/48h/".toList ++ Nat.toDigits 10 s.network.bip32 ++ "h/0h/2h".toList
  if single.length < 20 ∧ multisig.length < 20 then
    emit (Event.gui_set_default_xpubs single multisig) s
  else { s with ub := true }

/-- The function `process_action` (lines 179-286). -/
def process_action (W : World) (inp : TickInput) (action : gui_action) (s : State) : State :=
  match action with
  | gui_action.GUI_SECURE_SHUTDOWN =>
    { emit Event.wally_cleanup s with halted := true }
  | gui_action.GUI_GENERATE_KEY =>
    let v := inp.gui_value
    let v := if Int.tmod v 3 ≠ 0 ∨ v < 12 ∨ v > 24 then W.SPECTER_MNEMONIC_WORDS else v
    let s1 := generate_mnemonic W inp.rng (Int.toNat (Int.tdiv (v * 16) 12)) s
    emit (Event.gui_show_mnemonic s1.mnemonic) s1
  | gui_action.GUI_PROCESS_MNEMONIC =>
    let str := inp.gui_str
    if W.bip39_mnemonic_validate str = false then show_err "mnemonic is not correct" s
    else emit Event.gui_get_password { s with mnemonic := sstrcopy str s.mnemonic }
  | gui_action.GUI_PROCESS_PASSWORD =>
    let str := inp.gui_str
    let s1 := { s with password := sstrcopy str s.password }
    let s2 := { s1 with keystore := init_keys W s1.mnemonic s1.password }
    emit Event.gui_show_main_screen { s2 with password := none }
  | gui_action.GUI_PROCESS_NETWORK =>
    let val := inp.gui_value
    if val ≥ 0 ∧ val < W.NETWORKS_NUM then
      let s1 := { s with network := (W.networks.get? val.toNat).getD s.network }
      let s2 := emit (Event.gui_set_network val) s1
      let s3 := set_default_xpubs s2
      if s3.ub then s3 else emit Event.gui_show_main_screen s3
    else show_err "No such network" s
  | gui_action.GUI_SHOW_XPUB =>
    let str := inp.gui_str
    let xpub := W.keystore_get_xpub s.keystore str s.network
    emit (Event.gui_show_xpub s.keystore.fingerprint str xpub) s
  | gui_action.GUI_VERIFY_ADDRESS =>
    { emit Event.host_request_data s with in_action := VERIFY_ADDRESS }
  | gui_action.GUI_SIGN_PSBT =>
    { emit Event.host_request_data s with in_action := SIGN_PSBT }
  | gui_action.GUI_PSBT_CONFIRMED =>
    let s1 := emit (Event.keystore_sign_psbt s.psbt) s
    match W.keystore_sign_psbt s.keystore s.psbt with
    | some output => emit (Event.gui_show_signed_psbt output) (emit (Event.printf output) s1)
    | none => show_err "failed to sign transaction" s1
  | gui_action.GUI_BACK => emit Event.gui_show_init_screen s
  | _ => show_err "unrecognized action" s

/-- The host part of `update` (lines 365-375). -/
def update_host (W : World) (inp : TickInput) (s : State) : State :=
  if s.in_action ≠ NO_ACTION then
    if inp.host_len > 0 then
      let s1 := emit (Event.process_data_called s.in_action inp.host_buf) s
      let s2 := process_data W s1.in_action inp.host_buf s1
      if s2.ub then s2
      else { emit Event.host_flush s2 with in_action := NO_ACTION }
    else s
  else s

/-- The display part of `update` (lines 359-364); `gui_clear_action` is not
reached after `exit(0)`. -/
def update_gui (W : World) (inp : TickInput) (s : State) : State :=
  if inp.action ≠ gui_action.GUI_NO_ACTION then
    let t := process_action W inp inp.action s
    if t.halted ∨ t.ub then t else emit Event.gui_clear_action t
  else s

/-- The button part of `update` (lines 377-382).  The wait of lines 378-380 is
taken to end (the button is released). -/
def update_button (inp : TickInput) (s : State) : State :=
  if inp.btn then emit Event.gui_calibrate s else s

/-- The function `update` (lines 358-383), one tick of the main loop; no tick
runs after `exit(0)`. -/
def update (W : World) (inp : TickInput) (s : State) : State :=
  if s.halted ∨ s.ub then s
  else
    let s1 := update_gui W inp s
    if s1.halted ∨ s1.ub then s1
    else
      let s2 := update_host W inp s1
      if s2.ub then s2 else update_button inp s2

/-- The state at the start of `main`'s loop, before any display call of the
start-up is recorded. -/
def init_state (W : World) : State :=
  { mnemonic := none, password := none, keystore := W.keystore_init none none,
    network := W.Testnet, in_action := NO_ACTION, psbt := none, trace := [],
    halted := false, ub := false }

/-! ## Specification-side quantities -/

/-- The prevout value an input carries (0 when it carries none). -/
def input_value (inp : wally_psbt_input) : Nat :=
  match inp.witness_utxo with
  | some utxo => utxo.satoshi
  | none => 0

/-- The sum of the input values of a proposal in unsigned 64-bit arithmetic. -/
def in_total (p : wally_psbt) : Nat := (p.inputs.map input_value).sum % U64

/-- The sum of the output values of a proposal's transaction in unsigned 64-bit
arithmetic. -/
def out_total (p : wally_psbt) : Nat :=
  (p.tx.outputs.map wally_tx_output.satoshi).sum % U64

/-- Every input of the proposal carries its prevout value record. -/
def all_inputs_carry_prevout (p : wally_psbt) : Prop :=
  ∀ inp ∈ p.inputs, inp.witness_utxo ≠ none

/-- The error text of line 121. -/
def missing_prevout_msg : String :=
  "Unsupported legacy transaction or missing prevout information"

/-- The display lines `show_psbt` builds for a proposal: entry `i` describes
output `i` of the transaction. -/
def classified_outputs (W : World) (s : State) (p : wally_psbt) : List txout_t :=
  (fill_outputs W s.keystore s.network p p.tx.outputs 0 0).1

/-- The reason texts of the keystore-check gate, each with the condition under
which `show_psbt` picks it. -/
def reject_reason (W : World) (res : Int) (msg : String) : Prop :=
  (msg = "Can't sign the transaction"
      ∧ Int.land res W.KEYSTORE_PSBTERR_CANNOT_SIGN ≠ 0)
  ∨ (msg = "Mixed inputs are not supported yet"
      ∧ Int.land res W.KEYSTORE_PSBTERR_MIXED_INPUTS ≠ 0)
  ∨ (msg = "Something is wrong with transaction fields"
      ∧ Int.land res W.KEYSTORE_PSBTERR_WRONG_FIELDS ≠ 0)
  ∨ (msg = "Script policy is not supported"
      ∧ Int.land res W.KEYSTORE_PSBTERR_UNSUPPORTED_POLICY ≠ 0)
  ∨ (msg = "Something is wrong with transaction"
      ∧ Int.land res W.KEYSTORE_PSBTERR_CANNOT_SIGN = 0
      ∧ Int.land res W.KEYSTORE_PSBTERR_MIXED_INPUTS = 0
      ∧ Int.land res W.KEYSTORE_PSBTERR_WRONG_FIELDS = 0
      ∧ Int.land res W.KEYSTORE_PSBTERR_UNSUPPORTED_POLICY = 0)

/-- A word without white space. -/
def no_space (w : CStr) : Prop := ∀ c ∈ w, isspace c = false

instance (w : CStr) : Decidable (no_space w) := by
  unfold no_space; infer_instance

/-- The first payload form: `address=<addr>`, line feed, `type=<type>`, line
feed, `<fingerprint>/<path>`. -/
def address_form (addr type fingerprint path : CStr) : CStr :=
  "address=".toList ++ (addr ++ Char.ofNat 10 ::
    ("type=".toList ++ (type ++ Char.ofNat 10 :: (fingerprint ++ '/' :: path))))

/-- The second payload form: bare `<fingerprint>/<path>`. -/
def fingerprint_form (fingerprint path : CStr) : CStr := fingerprint ++ '/' :: path

/-- The third payload form: bare `m/<path>`. -/
def path_form (path : CStr) : CStr := 'm' :: '/' :: path

/-- The fields of a payload in the first form are words that `sscanf` reads
back whole and that fit the buffers `address[100]`, `type[10]`, `der[100]`. -/
def address_fields_ok (addr type fingerprint path : CStr) : Prop :=
  addr ≠ [] ∧ no_space addr ∧ addr.length < 100
  ∧ type ≠ [] ∧ no_space type ∧ type.length < 10
  ∧ no_space fingerprint ∧ no_space path
  ∧ (fingerprint ++ '/' :: path).length < 100

instance (addr type fingerprint path : CStr) :
    Decidable (address_fields_ok addr type fingerprint path) := by
  unfold address_fields_ok; infer_instance

/-- The host payloads passed to `process_data` so far, with the request kind
each was processed under, oldest first. -/
def pd_calls : List Event → List (Int × CStr)
  | [] => []
  | Event.process_data_called action buf :: rest => (action, buf) :: pd_calls rest
  | _ :: rest => pd_calls rest

/-- The request kind that is armed when a tick polls the host: the kind armed
by the display action of this tick if it arms one, else the kind left armed
before. -/
def armed_kind (inp : TickInput) (s : State) : Int :=
  if inp.action = gui_action.GUI_VERIFY_ADDRESS then VERIFY_ADDRESS
  else if inp.action = gui_action.GUI_SIGN_PSBT then SIGN_PSBT
  else s.in_action

/-! ## Concrete instances -/

/-- A test network. -/
def example_network : network_t :=
  { bech32 := "tb".toList, p2sh := 196, p2pkh := 111, bip32 := 1 }

/-- A keystore whose fingerprint is `abcdef12`. -/
def example_keystore : keystore_t :=
  { fingerprint := "abcdef12".toList, mnemonic := none, password := none }

/-- One input of 100,000 and one output of 99,000 to a 22-byte witness-v0
keyhash script. -/
def psbt_fee_1000 : wally_psbt :=
  { tx := { outputs := [{ satoshi := 99000, script := 0 :: 20 :: List.replicate 20 7 }] }
    inputs := [{ witness_utxo := some { satoshi := 100000, script := [] } }]
    num_outputs := 1 }

/-- One input of 1,000 and one output of 2,000. -/
def psbt_outputs_exceed : wally_psbt :=
  { tx := { outputs := [{ satoshi := 2000, script := 0 :: 20 :: List.replicate 20 7 }] }
    inputs := [{ witness_utxo := some { satoshi := 1000, script := [] } }]
    num_outputs := 1 }

/-- Two inputs, the second without its prevout record, and one output. -/
def psbt_no_prevout : wally_psbt :=
  { tx := { outputs := [{ satoshi := 500, script := 0 :: 20 :: List.replicate 20 7 }] }
    inputs := [{ witness_utxo := some { satoshi := 1000, script := [] } },
               { witness_utxo := none }]
    num_outputs := 1 }

/-- A world for the examples: the keystore error bits are 1, 2, 4 and 8, the
keystore check returns `mask` for every proposal, no output is change, the
address derived for a path is the path followed by a tag of the format, signing
succeeds when `can_sign` is set, and the parser knows three payloads. -/
def example_world (mask : Int) (can_sign : Bool) : World :=
  { KEYSTORE_PSBTERR_CANNOT_SIGN := 1
    KEYSTORE_PSBTERR_MIXED_INPUTS := 2
    KEYSTORE_PSBTERR_WRONG_FIELDS := 4
    KEYSTORE_PSBTERR_UNSUPPORTED_POLICY := 8
    SPECTER_MNEMONIC_WORDS := 12
    Testnet := example_network
    networks := [example_network, example_network, example_network, example_network]
    keystore_init := fun _ _ => example_keystore
    keystore_check_psbt := fun _ _ => mask
    keystore_output_is_change := fun _ _ _ => (false, none)
    keystore_get_addr := fun _ derivation _ format =>
      match format with
      | addr_format.KEYSTORE_BECH32_ADDRESS => some (derivation ++ "#bech32".toList)
      | addr_format.KEYSTORE_BASE58_ADDRESS => some (derivation ++ "#base58".toList)
    keystore_get_xpub := fun _ _ _ => none
    keystore_sign_psbt := fun _ _ => if can_sign then some "signed".toList else none
    wally_psbt_from_base64 := fun b =>
      if b = "psbt1".toList then some psbt_fee_1000
      else if b = "psbt2".toList then some psbt_outputs_exceed
      else if b = "psbt3".toList then some psbt_no_prevout
      else none
    wally_scriptpubkey_get_type := fun _ => script_type.P2WPKH
    wally_addr_segwit_from_bytes := fun _ _ => some "tb1qexample".toList
    wally_base58_from_bytes := fun _ => none
    bip39_mnemonic_from_bytes := fun _ => none
    bip39_mnemonic_validate := fun _ => true }

/-- One input of 1,000 and three outputs of 100, 200 and 300 to three different
witness-v0 keyhash scripts. -/
def psbt_three_outputs : wally_psbt :=
  { tx := { outputs := [{ satoshi := 100, script := 0 :: 20 :: List.replicate 20 1 },
                        { satoshi := 200, script := 0 :: 20 :: List.replicate 20 2 },
                        { satoshi := 300, script := 0 :: 20 :: List.replicate 20 3 }] }
    inputs := [{ witness_utxo := some { satoshi := 1000, script := [] } }]
    num_outputs := 3 }

/-- The example world with a keystore whose answer depends on the output index
(output 1 is change, output 2 comes with a warning, output 0 is neither) and
an address encoder whose result depends on the script. -/
def indexed_world : World :=
  { example_world 0 true with
    keystore_output_is_change := fun _ _ i =>
      (decide (i = 1), if i = 2 then some "ambiguous".toList else none)
    wally_addr_segwit_from_bytes := fun script _ =>
      some ("tb1q".toList ++ [Char.ofNat (96 + script.getLastD 0)]) }

/-- The start state of the example world. -/
def example_state : State := init_state (example_world 0 true)

/-- The example state while the proposal `psbt_fee_1000` is held for review. -/
def reviewing_state : State := { example_state with psbt := some psbt_fee_1000 }

/-- A tick input: display action `a`, host payload `buf` (available when
non-empty), button not pressed. -/
def example_tick (a : gui_action) (buf : CStr) : TickInput :=
  { action := a, gui_str := [], gui_value := 0, rng := fun n => List.replicate n 0,
    host_len := buf.length, host_buf := buf, btn := false }

/-! ## Lemmas on the two loops of `show_psbt` -/

theorem U64_pos : 0 < U64 := by unfold U64; positivity

/-- The 64-bit input total is the exact sum whenever that sum fits in 64 bits. -/
theorem in_total_exact (p : wally_psbt) (h : (p.inputs.map input_value).sum < U64) :
    in_total p = (p.inputs.map input_value).sum :=
  Nat.mod_eq_of_lt h

/-- The 64-bit output total is the exact sum whenever that sum fits in 64 bits. -/
theorem out_total_exact (p : wally_psbt)
    (h : (p.tx.outputs.map wally_tx_output.satoshi).sum < U64) :
    out_total p = (p.tx.outputs.map wally_tx_output.satoshi).sum :=
  Nat.mod_eq_of_lt h

theorem sum_inputs_eq_some (l : List wally_psbt_input) (acc : Nat) (hacc : acc < U64)
    (h : ∀ inp ∈ l, inp.witness_utxo ≠ none) :
    sum_inputs l acc = some ((acc + (l.map input_value).sum) % U64) := by
  induction l generalizing acc with
  | nil => simp [sum_inputs, Nat.mod_eq_of_lt hacc]
  | cons inp rest ih =>
    have hi : inp.witness_utxo ≠ none := h inp (List.mem_cons_self _ _)
    have hr : ∀ x ∈ rest, x.witness_utxo ≠ none :=
      fun x hx => h x (List.mem_cons_of_mem _ hx)
    cases hw : inp.witness_utxo with
    | none => exact absurd hw hi
    | some utxo =>
      have hv : input_value inp = utxo.satoshi := by simp [input_value, hw]
      simp only [sum_inputs, hw, List.map_cons, List.sum_cons, hv]
      rw [ih _ (Nat.mod_lt _ U64_pos) hr, Nat.mod_add_mod, Nat.add_assoc]

theorem sum_inputs_eq_none (l : List wally_psbt_input) (acc : Nat)
    (h : ∃ inp ∈ l, inp.witness_utxo = none) : sum_inputs l acc = none := by
  induction l generalizing acc with
  | nil => obtain ⟨inp, hm, _⟩ := h; cases hm
  | cons inp rest ih =>
    cases hw : inp.witness_utxo with
    | none => simp [sum_inputs, hw]
    | some utxo =>
      simp only [sum_inputs, hw]
      apply ih
      obtain ⟨x, hx, hxn⟩ := h
      rcases List.mem_cons.mp hx with rfl | hx2
      · rw [hw] at hxn; cases hxn
      · exact ⟨x, hx2, hxn⟩

theorem fill_outputs_total (W : World) (ks : keystore_t) (net : network_t) (p : wally_psbt)
    (l : List wally_tx_output) (i acc : Nat) (hacc : acc < U64) :
    (fill_outputs W ks net p l i acc).2
      = (acc + (l.map wally_tx_output.satoshi).sum) % U64 := by
  induction l generalizing i acc with
  | nil => simp [fill_outputs, Nat.mod_eq_of_lt hacc]
  | cons o rest ih =>
    simp only [fill_outputs, List.map_cons, List.sum_cons]
    rw [ih _ _ (Nat.mod_lt _ U64_pos), Nat.mod_add_mod, Nat.add_assoc]

theorem fill_outputs_length (W : World) (ks : keystore_t) (net : network_t) (p : wally_psbt)
    (l : List wally_tx_output) (i acc : Nat) :
    (fill_outputs W ks net p l i acc).1.length = l.length := by
  induction l generalizing i acc with
  | nil => simp [fill_outputs]
  | cons o rest ih => simp [fill_outputs, ih]

theorem fill_outputs_get (W : World) (ks : keystore_t) (net : network_t) (p : wally_psbt)
    (l : List wally_tx_output) (i acc k : Nat) (o : wally_tx_output) (h : l[k]? = some o) :
    (fill_outputs W ks net p l i acc).1[k]? = some (output_entry W ks net p (i + k) o) := by
  induction l generalizing i acc k with
  | nil => simp at h
  | cons o2 rest ih =>
    cases k with
    | zero =>
      simp only [List.getElem?_cons_zero, Option.some.injEq] at h
      simp [fill_outputs, h]
    | succ k =>
      simp only [List.getElem?_cons_succ] at h
      simp only [fill_outputs, List.getElem?_cons_succ]
      rw [ih (i + 1) _ k h]
      congr 2
      omega

/-- The value `show_psbt` returns and the state it leaves when the keystore
check passes, every input carries its prevout and the psbt is well formed. -/
theorem show_psbt_accept (W : World) (p : wally_psbt) (s : State)
    (hwf : p.wellFormed) (hcheck : W.keystore_check_psbt s.keystore p = 0)
    (hin : all_inputs_carry_prevout p) :
    show_psbt W p s
      = (0, emit (Event.gui_show_psbt (out_total p) 0
              ((in_total p + U64 - out_total p) % U64)
              p.num_outputs (classified_outputs W s p)) s) := by
  have h1 := sum_inputs_eq_some p.inputs 0 U64_pos hin
  have h2 := fill_outputs_total W s.keystore s.network p p.tx.outputs 0 0 U64_pos
  unfold wally_psbt.wellFormed at hwf
  simp only [Nat.zero_add] at h1 h2
  simp only [show_psbt, hcheck, h1, h2, hwf, in_total, out_total, classified_outputs]
  simp

theorem show_psbt_reject (W : World) (p : wally_psbt) (s : State)
    (hmask : W.keystore_check_psbt s.keystore p ≠ 0) :
    ∃ msg, show_psbt W p s = (-1, show_err msg s)
      ∧ reject_reason W (W.keystore_check_psbt s.keystore p) msg := by
  simp only [show_psbt]
  rw [if_pos hmask]
  by_cases h1 : Int.land (W.keystore_check_psbt s.keystore p)
      W.KEYSTORE_PSBTERR_CANNOT_SIGN ≠ 0
  · rw [if_pos h1]
    exact ⟨_, rfl, Or.inl ⟨rfl, h1⟩⟩
  rw [if_neg h1]
  by_cases h2 : Int.land (W.keystore_check_psbt s.keystore p)
      W.KEYSTORE_PSBTERR_MIXED_INPUTS ≠ 0
  · rw [if_pos h2]
    exact ⟨_, rfl, Or.inr (Or.inl ⟨rfl, h2⟩)⟩
  rw [if_neg h2]
  by_cases h3 : Int.land (W.keystore_check_psbt s.keystore p)
      W.KEYSTORE_PSBTERR_WRONG_FIELDS ≠ 0
  · rw [if_pos h3]
    exact ⟨_, rfl, Or.inr (Or.inr (Or.inl ⟨rfl, h3⟩))⟩
  rw [if_neg h3]
  by_cases h4 : Int.land (W.keystore_check_psbt s.keystore p)
      W.KEYSTORE_PSBTERR_UNSUPPORTED_POLICY ≠ 0
  · rw [if_pos h4]
    exact ⟨_, rfl, Or.inr (Or.inr (Or.inr (Or.inl ⟨rfl, h4⟩)))⟩
  rw [if_neg h4]
  exact ⟨_, rfl, Or.inr (Or.inr (Or.inr (Or.inr
    ⟨rfl, not_not.mp h1, not_not.mp h2, not_not.mp h3, not_not.mp h4⟩)))⟩

theorem show_psbt_zero_imp (W : World) (p : wally_psbt) (s : State)
    (h : (show_psbt W p s).1 = 0) :
    W.keystore_check_psbt s.keystore p = 0 ∧ all_inputs_carry_prevout p := by
  by_cases hc : W.keystore_check_psbt s.keystore p = 0
  · refine ⟨hc, ?_⟩
    intro inp hm hn
    have hnone := sum_inputs_eq_none p.inputs 0 ⟨inp, hm, hn⟩
    simp [show_psbt, hc, hnone] at h
  · exfalso
    obtain ⟨msg, hs, _⟩ := show_psbt_reject W p s hc
    rw [hs] at h
    simp at h

theorem reject_reason_ne_missing_prevout (W : World) (res : Int) (msg : String)
    (h : reject_reason W res msg) : msg ≠ missing_prevout_msg := by
  rcases h with ⟨h, _⟩ | ⟨h, _⟩ | ⟨h, _⟩ | ⟨h, _⟩ | ⟨h, _⟩ <;> subst h <;> decide

/-! ## The review: claims C2, C3, C4, C5, C8 -/

/-- C2 (counterexample).  A proposal that passes the keystore check, whose only
input carries 1,000 and whose only output pays 2,000, is not rejected:
`show_psbt` returns 0 and hands the display the fee 2^64 - 1000. -/
theorem C2_counterexample :
    (example_world 0 true).keystore_check_psbt example_state.keystore psbt_outputs_exceed = 0
    ∧ all_inputs_carry_prevout psbt_outputs_exceed
    ∧ in_total psbt_outputs_exceed = 1000 ∧ out_total psbt_outputs_exceed = 2000
    ∧ show_psbt (example_world 0 true) psbt_outputs_exceed example_state
      = (0, emit (Event.gui_show_psbt 2000 0 18446744073709550616 1
          [{ address := some "tb1qexample".toList, amount := 2000, is_change := false,
             warning := none }]) example_state) := by
  refine ⟨rfl, ?_, by decide, by decide, by decide⟩
  intro inp hm
  simp [psbt_outputs_exceed] at hm
  simp [hm]

/-- C2 (amended).  For every well-formed proposal that passes the keystore check
and whose inputs all carry prevout value, if the 64-bit input total is strictly
less than the 64-bit output total then `show_psbt` still returns success and
hands the display the wrapped fee `in_total + 2^64 - out_total`. -/
theorem C2_outputs_exceed_inputs_wraps (W : World) (p : wally_psbt) (s : State)
    (hwf : p.wellFormed) (hcheck : W.keystore_check_psbt s.keystore p = 0)
    (hin : all_inputs_carry_prevout p) (hlt : in_total p < out_total p) :
    show_psbt W p s
      = (0, emit (Event.gui_show_psbt (out_total p) 0 (in_total p + U64 - out_total p)
              p.num_outputs (classified_outputs W s p)) s) := by
  rw [show_psbt_accept W p s hwf hcheck hin]
  have ho : out_total p < U64 := Nat.mod_lt _ U64_pos
  have hfee : (in_total p + U64 - out_total p) % U64 = in_total p + U64 - out_total p :=
    Nat.mod_eq_of_lt (by omega)
  rw [hfee]

/-- C2 (witness of the amended statement). -/
theorem C2_outputs_exceed_inputs_wraps_witness :
    show_psbt (example_world 0 true) psbt_outputs_exceed example_state
      = (0, emit (Event.gui_show_psbt (out_total psbt_outputs_exceed) 0
              (in_total psbt_outputs_exceed + U64 - out_total psbt_outputs_exceed)
              psbt_outputs_exceed.num_outputs
              (classified_outputs (example_world 0 true) example_state psbt_outputs_exceed))
            example_state) :=
  C2_outputs_exceed_inputs_wraps (example_world 0 true) psbt_outputs_exceed example_state
    (by decide) rfl (by intro inp hm; simp [psbt_outputs_exceed] at hm; simp [hm]) (by decide)

/-- C3.  For every well-formed proposal that passes the keystore check, whose
inputs all carry prevout value and whose input total is at least its output
total (totals in unsigned 64-bit arithmetic), `show_psbt` returns success and
hands the display `totalOut` equal to the output total and `fee` equal to the
input total minus the output total, with one display entry per output. -/
theorem C3_fee_is_inputs_minus_outputs (W : World) (p : wally_psbt) (s : State)
    (hwf : p.wellFormed) (hcheck : W.keystore_check_psbt s.keystore p = 0)
    (hin : all_inputs_carry_prevout p) (hge : out_total p ≤ in_total p) :
    show_psbt W p s
      = (0, emit (Event.gui_show_psbt (out_total p) 0 (in_total p - out_total p)
              p.num_outputs (classified_outputs W s p)) s)
    ∧ (classified_outputs W s p).length = p.tx.num_outputs := by
  refine ⟨?_, fill_outputs_length _ _ _ _ _ _ _⟩
  rw [show_psbt_accept W p s hwf hcheck hin]
  have hi : in_total p < U64 := Nat.mod_lt _ U64_pos
  have hfee : (in_total p + U64 - out_total p) % U64 = in_total p - out_total p := by
    have : in_total p + U64 - out_total p = (in_total p - out_total p) + U64 := by omega
    rw [this, Nat.add_mod_right]
    exact Nat.mod_eq_of_lt (by omega)
  rw [hfee]

/-- C3 (witness).  One input of 100,000 and one output of 99,000: the display
receives total 99,000, fee 1,000 and one entry, not flagged as change. -/
theorem C3_fee_is_inputs_minus_outputs_witness :
    show_psbt (example_world 0 true) psbt_fee_1000 example_state
      = (0, emit (Event.gui_show_psbt 99000 0 1000 1
            [{ address := some "tb1qexample".toList, amount := 99000, is_change := false,
               warning := none }]) example_state)
    ∧ (classified_outputs (example_world 0 true) example_state psbt_fee_1000).length = 1 :=
  C3_fee_is_inputs_minus_outputs (example_world 0 true) psbt_fee_1000 example_state
    (by decide) rfl (by intro inp hm; simp [psbt_fee_1000] at hm; simp [hm]) (by decide)

/-- C4 (counterexample).  The proposal `psbt_no_prevout` has an input without
its prevout record; when the keystore check returns the cannot-sign bit for it,
`show_psbt` reports "Can't sign the transaction" and not the missing-prevout
error. -/
theorem C4_counterexample :
    (∃ inp ∈ psbt_no_prevout.inputs, inp.witness_utxo = none)
    ∧ show_psbt (example_world 1 true) psbt_no_prevout example_state
        = (-1, show_err "Can't sign the transaction" example_state)
    ∧ show_psbt (example_world 1 true) psbt_no_prevout example_state
        ≠ (-1, show_err missing_prevout_msg example_state) := by
  refine ⟨⟨{ witness_utxo := none }, by simp [psbt_no_prevout], rfl⟩, by decide, by decide⟩

/-- C4 (amended).  For every proposal in which at least one input lacks the
`witness_utxo` record, `show_psbt` fails, reports one error and shows no
summary; the error is the missing-prevout one when the keystore check returns
0, and is never the missing-prevout one when the keystore check returns a
non-zero mask (the keystore check is the earlier gate). -/
theorem C4_missing_prevout_rejected (W : World) (p : wally_psbt) (s : State)
    (hmiss : ∃ inp ∈ p.inputs, inp.witness_utxo = none) :
    ∃ msg, show_psbt W p s = (-1, show_err msg s)
      ∧ (W.keystore_check_psbt s.keystore p = 0 → msg = missing_prevout_msg)
      ∧ (W.keystore_check_psbt s.keystore p ≠ 0 → msg ≠ missing_prevout_msg) := by
  have hnone := sum_inputs_eq_none p.inputs 0 hmiss
  by_cases hc : W.keystore_check_psbt s.keystore p = 0
  · exact ⟨missing_prevout_msg, by simp [show_psbt, hc, hnone, missing_prevout_msg],
      fun _ => rfl, fun h => absurd hc h⟩
  · obtain ⟨msg, hs, hr⟩ := show_psbt_reject W p s hc
    exact ⟨msg, hs, fun h => absurd h hc,
      fun _ => reject_reason_ne_missing_prevout W _ msg hr⟩

/-- C4 (witness of the amended statement). -/
theorem C4_missing_prevout_rejected_witness :
    ∃ msg, show_psbt (example_world 0 true) psbt_no_prevout example_state
        = (-1, show_err msg example_state)
      ∧ ((example_world 0 true).keystore_check_psbt example_state.keystore psbt_no_prevout = 0
          → msg = missing_prevout_msg)
      ∧ ((example_world 0 true).keystore_check_psbt example_state.keystore psbt_no_prevout ≠ 0
          → msg ≠ missing_prevout_msg) :=
  C4_missing_prevout_rejected (example_world 0 true) psbt_no_prevout example_state
    ⟨{ witness_utxo := none }, by simp [psbt_no_prevout], rfl⟩

/-- C5.  For every non-zero mask returned by the keystore check, `show_psbt`
returns -1 and its whole effect is one `show_err` call (so the summary display
is not called); the reason reported is that of a recognised bit that is set in
the mask, and it is the generic one exactly when no recognised bit is set. -/
theorem C5_nonzero_mask_rejected_once (W : World) (p : wally_psbt) (s : State)
    (hmask : W.keystore_check_psbt s.keystore p ≠ 0) :
    ∃ msg, show_psbt W p s = (-1, show_err msg s)
      ∧ reject_reason W (W.keystore_check_psbt s.keystore p) msg :=
  show_psbt_reject W p s hmask

/-- C5 (witness).  The mask 6 has the mixed-inputs and the wrong-fields bits
set: the proposal is rejected once, with the mixed-inputs reason. -/
theorem C5_nonzero_mask_rejected_once_witness :
    ∃ msg, show_psbt (example_world 6 true) psbt_fee_1000 example_state
        = (-1, show_err msg example_state)
      ∧ reject_reason (example_world 6 true) 6 msg :=
  C5_nonzero_mask_rejected_once (example_world 6 true) psbt_fee_1000 example_state
    (by decide)

/-- C8.  For every well-formed proposal on which `show_psbt` succeeds, the
display receives the count `psbt->num_outputs` and a list of exactly that many
entries, that count is the number of outputs of the transaction, and for every
output index `i` the `i`-th entry carries the value of the `i`-th output as its
amount and the change flag and the warning the keystore returned for index
`i`. -/
theorem C8_outputs_in_order (W : World) (p : wally_psbt) (s : State)
    (hwf : p.wellFormed) (hok : (show_psbt W p s).1 = 0) :
    ∃ out_amount change_amount fee outputs,
      (show_psbt W p s).2
        = emit (Event.gui_show_psbt out_amount change_amount fee p.num_outputs outputs) s
      ∧ outputs.length = p.tx.num_outputs
      ∧ p.num_outputs = p.tx.num_outputs
      ∧ ∀ i o, p.tx.outputs[i]? = some o →
          ∃ e, outputs[i]? = some e ∧ e.amount = o.satoshi
            ∧ e.is_change = (W.keystore_output_is_change s.keystore p i).1
            ∧ e.warning = (W.keystore_output_is_change s.keystore p i).2 := by
  obtain ⟨hcheck, hin⟩ := show_psbt_zero_imp W p s hok
  refine ⟨out_total p, 0, (in_total p + U64 - out_total p) % U64, classified_outputs W s p,
    ?_, fill_outputs_length _ _ _ _ _ _ _, hwf, ?_⟩
  · rw [show_psbt_accept W p s hwf hcheck hin]
  · intro i o hio
    refine ⟨output_entry W s.keystore s.network p i o, ?_, rfl, rfl, rfl⟩
    have := fill_outputs_get W s.keystore s.network p p.tx.outputs 0 0 i o hio
    simpa [classified_outputs] using this

/-- C8 (witness).  A proposal with three outputs of 100, 200 and 300 and a
keystore that flags output 1 as change and warns on output 2: `show_psbt`
succeeds, the display receives the count 3 and three entries, and entry 0, 1, 2
carries the amount 100, 200, 300 with the flag and the warning of its own
index; the whole display call is also given explicitly. -/
theorem C8_outputs_in_order_witness :
    (show_psbt indexed_world psbt_three_outputs example_state)
      = (0, emit (Event.gui_show_psbt 600 0 400 3
          [{ address := some "tb1qa".toList, amount := 100, is_change := false,
             warning := none },
           { address := some "tb1qb".toList, amount := 200, is_change := true,
             warning := none },
           { address := some "tb1qc".toList, amount := 300, is_change := false,
             warning := some "ambiguous".toList }]) example_state)
    ∧ ∃ out_amount change_amount fee outputs,
      (show_psbt indexed_world psbt_three_outputs example_state).2
        = emit (Event.gui_show_psbt out_amount change_amount fee 3 outputs) example_state
      ∧ outputs.length = 3
      ∧ (∃ e, outputs[0]? = some e ∧ e.amount = 100 ∧ e.is_change = false
          ∧ e.warning = none)
      ∧ (∃ e, outputs[1]? = some e ∧ e.amount = 200 ∧ e.is_change = true
          ∧ e.warning = none)
      ∧ (∃ e, outputs[2]? = some e ∧ e.amount = 300 ∧ e.is_change = false
          ∧ e.warning = some "ambiguous".toList) := by
  refine ⟨by decide, ?_⟩
  obtain ⟨out_amount, change_amount, fee, outputs, htrace, hlen, _, hget⟩ :=
    C8_outputs_in_order indexed_world psbt_three_outputs example_state (by decide) (by decide)
  refine ⟨out_amount, change_amount, fee, outputs, htrace, hlen,
    hget 0 { satoshi := 100, script := 0 :: 20 :: List.replicate 20 1 } rfl,
    hget 1 { satoshi := 200, script := 0 :: 20 :: List.replicate 20 2 } rfl,
    hget 2 { satoshi := 300, script := 0 :: 20 :: List.replicate 20 3 } rfl⟩

/-! ## Lemmas on the payload scanner -/

theorem match_literal_append (lit rest : CStr) :
    match_literal lit (lit ++ rest) = lit_match.ok rest := by
  induction lit with
  | nil => cases rest <;> rfl
  | cons c lit ih => simp [match_literal, ih]

theorem match_literal_ok_imp (lit input rest : CStr)
    (h : match_literal lit input = lit_match.ok rest) : input = lit ++ rest := by
  induction lit generalizing input with
  | nil =>
    cases input <;> simp [match_literal] at h <;> simp [h]
  | cons c lit ih =>
    cases input with
    | nil => simp [match_literal] at h
    | cons d input =>
      by_cases hcd : c = d
      · simp only [match_literal, hcd, if_true] at h
        simp [hcd, ih input h]
      · simp [match_literal, hcd] at h

theorem takeWhile_word_end (w : CStr) (hw : no_space w) :
    w.takeWhile (fun c => !isspace c) = w ∧ w.dropWhile (fun c => !isspace c) = [] := by
  induction w with
  | nil => simp
  | cons c w ih =>
    have hc : isspace c = false := hw c (List.mem_cons_self _ _)
    have hr : no_space w := fun x hx => hw x (List.mem_cons_of_mem _ hx)
    simp [List.takeWhile, List.dropWhile, hc, ih hr]

theorem takeWhile_word_sep (w rest : CStr) (sep : Char) (hw : no_space w)
    (hsep : isspace sep = true) :
    (w ++ sep :: rest).takeWhile (fun c => !isspace c) = w
    ∧ (w ++ sep :: rest).dropWhile (fun c => !isspace c) = sep :: rest := by
  induction w with
  | nil => simp [List.takeWhile, List.dropWhile, hsep]
  | cons c w ih =>
    have hc : isspace c = false := hw c (List.mem_cons_self _ _)
    have hr : no_space w := fun x hx => hw x (List.mem_cons_of_mem _ hx)
    simp [List.takeWhile, List.dropWhile, hc, ih hr]

theorem skip_space_word (w rest : CStr) (hne : w ≠ []) (hw : no_space w) :
    skip_space (w ++ rest) = w ++ rest := by
  cases w with
  | nil => exact absurd rfl hne
  | cons c w =>
    have hc : isspace c = false := hw c (List.mem_cons_self _ _)
    simp [skip_space, List.dropWhile, hc]

theorem scan_s_word_sep (w rest : CStr) (sep : Char) (hne : w ≠ []) (hw : no_space w)
    (hsep : isspace sep = true) : scan_s (w ++ sep :: rest) = (w, sep :: rest) := by
  simp only [scan_s, skip_space_word w _ hne hw]
  rw [(takeWhile_word_sep w rest sep hw hsep).1, (takeWhile_word_sep w rest sep hw hsep).2]

theorem scan_s_word_end (w : CStr) (hw : no_space w) (hne : w ≠ []) : scan_s w = (w, []) := by
  have h := skip_space_word w [] hne hw
  simp only [List.append_nil] at h
  simp only [scan_s, h]
  rw [(takeWhile_word_end w hw).1, (takeWhile_word_end w hw).2]

theorem isspace_line_feed : isspace (Char.ofNat 10) = true := by decide

theorem skip_space_sep_word (w rest : CStr) (sep : Char) (hne : w ≠ []) (hw : no_space w)
    (hsep : isspace sep = true) : skip_space (sep :: (w ++ rest)) = w ++ rest := by
  have h := skip_space_word w rest hne hw
  simp only [skip_space] at h
  simp [skip_space, List.dropWhile, hsep, h]

theorem no_space_der (fingerprint path : CStr) (hf : no_space fingerprint)
    (hp : no_space path) : no_space (fingerprint ++ '/' :: path) := by
  intro c hc
  rcases List.mem_append.mp hc with h | h
  · exact hf c h
  · rcases List.mem_cons.mp h with h | h
    · subst h; decide
    · exact hp c h

/-- What `sscanf` reads from a payload in the first form: three conversions,
the three fields. -/
theorem sscanf_address_form (addr type fingerprint path : CStr)
    (h : address_fields_ok addr type fingerprint path) :
    sscanf_address (address_form addr type fingerprint path)
      = ⟨3, some addr, some type, some (fingerprint ++ '/' :: path)⟩ := by
  obtain ⟨ha, has, _, ht, hts, _, hf, hp, _⟩ := h
  have hd : no_space (fingerprint ++ '/' :: path) := no_space_der fingerprint path hf hp
  have hdne : fingerprint ++ '/' :: path ≠ [] := by simp
  have h1 := scan_s_word_sep addr
    ("type=".toList ++ (type ++ Char.ofNat 10 :: (fingerprint ++ '/' :: path)))
    (Char.ofNat 10) ha has isspace_line_feed
  have h2 := skip_space_sep_word "type=".toList
    (type ++ Char.ofNat 10 :: (fingerprint ++ '/' :: path)) (Char.ofNat 10)
    (by decide) (by decide) isspace_line_feed
  have h3 := scan_s_word_sep type (fingerprint ++ '/' :: path) (Char.ofNat 10) ht hts
    isspace_line_feed
  have h4 := skip_space_sep_word (fingerprint ++ '/' :: path) [] (Char.ofNat 10) hdne hd
    isspace_line_feed
  simp only [List.append_nil] at h4
  have h5 := scan_s_word_end (fingerprint ++ '/' :: path) hd hdne
  simp only [sscanf_address, address_form, match_literal_append, h1, h2, h3, h4, h5]
  simp [ha, ht]

/-- When the payload does not start with `address=`, `sscanf` stores nothing and
returns 0 or `EOF`. -/
theorem sscanf_address_no_tag (buf : CStr) (h : buf.take 8 ≠ "address=".toList) :
    (sscanf_address buf).res ≤ 0 ∧ (sscanf_address buf).address = none
      ∧ (sscanf_address buf).type = none ∧ (sscanf_address buf).der = none := by
  cases hm : match_literal "address=".toList buf with
  | ok rest =>
    exfalso
    apply h
    rw [match_literal_ok_imp _ _ _ hm]
    exact List.take_left' (by decide)
  | mismatch =>
    simp only [sscanf_address, hm]
    decide
  | eof =>
    simp only [sscanf_address, hm]
    decide

/-! ## Lemmas on the `VERIFY_ADDRESS` case -/

theorem take8_der (fingerprint path : CStr) (h8 : 8 ≤ fingerprint.length) :
    (fingerprint ++ '/' :: path).take 8 = fingerprint.take 8 :=
  List.take_append_of_le_length h8

/-- First form, fingerprint check of line 302. -/
theorem verify_address_form (W : World) (s : State) (addr type fingerprint path : CStr)
    (hok : address_fields_ok addr type fingerprint path) (h8 : 8 ≤ fingerprint.length) :
    process_verify_address W (address_form addr type fingerprint path) s
      = if fingerprint_differs fingerprint s.keystore.fingerprint then
          show_err "Wrong fingerprint" s
        else derive_and_show W (address_form addr type fingerprint path)
          ((fingerprint ++ '/' :: path).drop 9 ++ addr.drop 1) s := by
  have hsc := sscanf_address_form addr type fingerprint path hok
  obtain ⟨_, _, hal, _, _, htl, _, _, hdl⟩ := hok
  have hlen : ¬ (fingerprint ++ '/' :: path).length < 9 := by
    simp only [List.length_append, List.length_cons]; omega
  have hd : fingerprint_differs (fingerprint ++ '/' :: path) s.keystore.fingerprint
      = fingerprint_differs fingerprint s.keystore.fingerprint := by
    simp only [fingerprint_differs, take8_der fingerprint path h8]
  simp only [process_verify_address, hsc, fits, hal, htl, hdl, hd, hlen]
  rfl

/-- Second form, fingerprint check of line 310. -/
theorem verify_fingerprint_form (W : World) (s : State) (fingerprint path : CStr)
    (h8 : 8 ≤ fingerprint.length) (hm : fingerprint.take 2 ≠ "m/".toList)
    (ha : fingerprint.take 8 ≠ "address=".toList) :
    process_verify_address W (fingerprint_form fingerprint path) s
      = if fingerprint_differs fingerprint s.keystore.fingerprint then
          show_err "Wrong fingerprint" s
        else derive_and_show W (fingerprint_form fingerprint path)
          ((fingerprint ++ '/' :: path).drop 9) s := by
  have hsc := sscanf_address_no_tag (fingerprint_form fingerprint path)
    (by rw [fingerprint_form, take8_der fingerprint path h8]; exact ha)
  obtain ⟨hres, hadr, hty, hder⟩ := hsc
  have hres2 : ¬ (sscanf_address (fingerprint_form fingerprint path)).res > 0 := by omega
  have hlen : ¬ (fingerprint ++ '/' :: path).length < 9 := by
    simp only [List.length_append, List.length_cons]; omega
  have h2 : (fingerprint ++ '/' :: path).take 2 = fingerprint.take 2 :=
    List.take_append_of_le_length (by omega)
  have hd : fingerprint_differs (fingerprint ++ '/' :: path) s.keystore.fingerprint
      = fingerprint_differs fingerprint s.keystore.fingerprint := by
    simp only [fingerprint_differs, take8_der fingerprint path h8]
  have hm2 : ((fingerprint ++ '/' :: path).take 2 != "m/".toList) = true := by
    rw [h2]; simpa using hm
  simp only [fingerprint_form] at hadr hty hder hres2
  simp only [process_verify_address, fingerprint_form, hadr, hty, hder, fits, hres2, hm2, hd,
    hlen]
  rfl

/-- Third form: no fingerprint check, the whole payload is the path. -/
theorem verify_path_form (W : World) (s : State) (path : CStr) :
    process_verify_address W (path_form path) s
      = derive_and_show W (path_form path) (path_form path) s := by
  have hsc := sscanf_address_no_tag (path_form path) (by
    intro h
    have h0 := congrArg List.head? h
    simp [path_form] at h0)
  obtain ⟨hres, hadr, hty, hder⟩ := hsc
  have hres2 : ¬ (sscanf_address (path_form path)).res > 0 := by omega
  have hm2 : ((path_form path).take 2 != "m/".toList) = false := by
    simp [path_form]
  simp only [process_verify_address, hadr, hty, hder, fits, hres2, hm2]
  simp

/-- First form with the wallet's own 8-character fingerprint: the path handed to
the keystore is the payload's path followed by the `<addr>` field without its
first character (line 306). -/
theorem verify_address_form_path (W : World) (s : State) (addr type fingerprint path : CStr)
    (hok : address_fields_ok addr type fingerprint path) (h8 : fingerprint.length = 8)
    (hfp : fingerprint_differs fingerprint s.keystore.fingerprint = false) :
    process_verify_address W (address_form addr type fingerprint path) s
      = derive_and_show W (address_form addr type fingerprint path)
          (path ++ addr.drop 1) s := by
  rw [verify_address_form W s addr type fingerprint path hok (by omega), hfp]
  have : (fingerprint ++ '/' :: path).drop 9 = path := by
    have h9 : (fingerprint ++ ['/']).length = 9 := by simp [h8]
    have : fingerprint ++ '/' :: path = (fingerprint ++ ['/']) ++ path := by simp
    rw [this, List.drop_left' h9]
  simp [this]

/-- Second form with the wallet's own 8-character fingerprint: the path handed
to the keystore is exactly the payload's path (line 314). -/
theorem verify_fingerprint_form_path (W : World) (s : State) (fingerprint path : CStr)
    (h8 : fingerprint.length = 8) (hm : fingerprint.take 2 ≠ "m/".toList)
    (ha : fingerprint.take 8 ≠ "address=".toList)
    (hfp : fingerprint_differs fingerprint s.keystore.fingerprint = false) :
    process_verify_address W (fingerprint_form fingerprint path) s
      = derive_and_show W (fingerprint_form fingerprint path) path s := by
  rw [verify_fingerprint_form W s fingerprint path (by omega) hm ha, hfp]
  have : (fingerprint ++ '/' :: path).drop 9 = path := by
    have h9 : (fingerprint ++ ['/']).length = 9 := by simp [h8]
    have : fingerprint ++ '/' :: path = (fingerprint ++ ['/']) ++ path := by simp
    rw [this, List.drop_left' h9]
  simp [this]

theorem process_data_verify (W : World) (buf : CStr) (s : State) :
    process_data W VERIFY_ADDRESS buf s = process_verify_address W buf s := by
  simp [process_data]

theorem process_data_sign (W : World) (buf : CStr) (s : State) :
    process_data W SIGN_PSBT buf s = process_sign_psbt W buf s := by
  simp [process_data, SIGN_PSBT, VERIFY_ADDRESS]

/-! ## Address verification: claims C1 and C9 -/

/-- C1 (counterexample).  The payload `m/84h/1h/0h/0/5` is in the third accepted
form; its first 8 bytes differ from the wallet's fingerprint `abcdef12`, yet
`process_data` shows no error, calls the keystore derivation twice and hands
both addresses to the display. -/
theorem C1_counterexample :
    (path_form "84h/1h/0h/0/5".toList).take 8 ≠ example_state.keystore.fingerprint.take 8
    ∧ process_data (example_world 0 true) VERIFY_ADDRESS (path_form "84h/1h/0h/0/5".toList)
        example_state
      = emit (Event.gui_show_addresses "m/84h/1h/0h/0/5".toList
            "m/84h/1h/0h/0/5#bech32".toList "m/84h/1h/0h/0/5#base58".toList)
          (emit (Event.keystore_get_addr "m/84h/1h/0h/0/5".toList example_network
              addr_format.KEYSTORE_BASE58_ADDRESS)
            (emit (Event.keystore_get_addr "m/84h/1h/0h/0/5".toList example_network
              addr_format.KEYSTORE_BECH32_ADDRESS) example_state)) := by
  refine ⟨by decide, ?_⟩
  rw [process_data_verify, verify_path_form]
  rfl

/-- C1 (amended).  For a payload in the `address=` form or in the bare
fingerprint form, if the first 8 bytes of the attached fingerprint differ from
the wallet's fingerprint then the whole effect of `process_data` is the
wrong-fingerprint error: the keystore derivation is not called and nothing is
handed to the display.  A payload in the bare `m/<path>` form carries no
fingerprint and is not checked: its path goes to the derivation. -/
theorem C1_wrong_fingerprint_fails_closed (W : World) (s : State) (fingerprint path : CStr)
    (h8 : 8 ≤ fingerprint.length)
    (hdiff : fingerprint.take 8 ≠ s.keystore.fingerprint.take 8) :
    (∀ addr type, address_fields_ok addr type fingerprint path →
        process_data W VERIFY_ADDRESS (address_form addr type fingerprint path) s
          = show_err "Wrong fingerprint" s)
    ∧ (fingerprint.take 2 ≠ "m/".toList → fingerprint.take 8 ≠ "address=".toList →
        process_data W VERIFY_ADDRESS (fingerprint_form fingerprint path) s
          = show_err "Wrong fingerprint" s)
    ∧ process_data W VERIFY_ADDRESS (path_form path) s
        = derive_and_show W (path_form path) (path_form path) s := by
  have hd : fingerprint_differs fingerprint s.keystore.fingerprint = true := by
    simpa [fingerprint_differs] using hdiff
  refine ⟨?_, ?_, ?_⟩
  · intro addr type hok
    rw [process_data_verify, verify_address_form W s addr type fingerprint path hok h8, hd]
    rfl
  · intro hm ha
    rw [process_data_verify, verify_fingerprint_form W s fingerprint path h8 hm ha, hd]
    rfl
  · rw [process_data_verify, verify_path_form]

/-- C1 (witness of the amended statement).  The attached fingerprint `abcdef13`
against the wallet's `abcdef12`, in the first and in the second form. -/
theorem C1_wrong_fingerprint_fails_closed_witness :
    process_data (example_world 0 true) VERIFY_ADDRESS
        (address_form "tb1qxyz".toList "wpkh".toList "abcdef13".toList "84h/1h/0h/0/5".toList)
        example_state
      = show_err "Wrong fingerprint" example_state
    ∧ process_data (example_world 0 true) VERIFY_ADDRESS
        (fingerprint_form "abcdef13".toList "84h/1h/0h/0/5".toList) example_state
      = show_err "Wrong fingerprint" example_state :=
  have h := C1_wrong_fingerprint_fails_closed (example_world 0 true) example_state
    "abcdef13".toList "84h/1h/0h/0/5".toList (by decide) (by decide)
  ⟨h.1 "tb1qxyz".toList "wpkh".toList (by decide), h.2.1 (by decide) (by decide)⟩

/-- C9 (failing input).  The payload `address=tb1qxyz`, `type=wpkh`,
`abcdef12/84h/1h/0h/0/5` carries the wallet's fingerprint and the path
`84h/1h/0h/0/5`; the path passed to the keystore for both formats is
`84h/1h/0h/0/5b1qxyz`: the `<addr>` field without its first character is
appended to it. -/
theorem C9_addr_field_enters_path :
    process_data (example_world 0 true) VERIFY_ADDRESS
        (address_form "tb1qxyz".toList "wpkh".toList "abcdef12".toList "84h/1h/0h/0/5".toList)
        example_state
      = emit (Event.gui_show_addresses
            (address_form "tb1qxyz".toList "wpkh".toList "abcdef12".toList
              "84h/1h/0h/0/5".toList)
            "84h/1h/0h/0/5b1qxyz#bech32".toList "84h/1h/0h/0/5b1qxyz#base58".toList)
          (emit (Event.keystore_get_addr "84h/1h/0h/0/5b1qxyz".toList example_network
              addr_format.KEYSTORE_BASE58_ADDRESS)
            (emit (Event.keystore_get_addr "84h/1h/0h/0/5b1qxyz".toList example_network
              addr_format.KEYSTORE_BECH32_ADDRESS) example_state)) := by
  rw [process_data_verify, verify_address_form_path _ _ _ _ _ _ (by decide) (by decide)
    (by decide)]
  rfl

/-! ## Lemmas on the `SIGN_PSBT` case -/

/-- On a well-formed psbt the whole effect of `show_psbt` is one call into the
display; no global changes. -/
theorem show_psbt_effect (W : World) (p : wally_psbt) (s : State) (hwf : p.wellFormed) :
    ∃ e, (show_psbt W p s).2 = emit e s := by
  by_cases hc : W.keystore_check_psbt s.keystore p = 0
  · by_cases hin : all_inputs_carry_prevout p
    · exact ⟨_, by rw [show_psbt_accept W p s hwf hc hin]⟩
    · have hmiss : ∃ inp ∈ p.inputs, inp.witness_utxo = none := by
        unfold all_inputs_carry_prevout at hin
        push_neg at hin
        exact hin
      have hnone := sum_inputs_eq_none p.inputs 0 hmiss
      exact ⟨Event.show_err missing_prevout_msg,
        by simp [show_psbt, hc, hnone, missing_prevout_msg, show_err, emit]⟩
  · obtain ⟨msg, hs, _⟩ := show_psbt_reject W p s hc
    exact ⟨Event.show_err msg, by rw [hs]; rfl⟩

/-- The proposal held after the `SIGN_PSBT` case. -/
theorem process_sign_psbt_held (W : World) (buf : CStr) (s : State) :
    (process_sign_psbt W buf s).psbt =
      match W.wally_psbt_from_base64 buf with
      | none => none
      | some p => if (show_psbt W p { s with psbt := some p }).1 = 0 then some p else none := by
  unfold process_sign_psbt
  cases hp : W.wally_psbt_from_base64 buf with
  | none => simp [show_err]
  | some p =>
    simp only
    by_cases hr : (show_psbt W p { s with psbt := some p }).1 = 0
    · have hz := show_psbt_zero_imp W p _ hr
      rw [if_pos hr]
      simp only [hr, ne_eq, not_true_eq_false, if_false]
      by_cases hlt : p.num_outputs < p.tx.num_outputs
      · have h1 := sum_inputs_eq_some p.inputs 0 U64_pos hz.2
        simp [show_psbt, hz.1, h1, hlt]
      · have h1 := sum_inputs_eq_some p.inputs 0 U64_pos hz.2
        simp [show_psbt, hz.1, h1, hlt, emit]
    · rw [if_neg hr]
      simp [hr]

theorem process_sign_psbt_ub (W : World) (buf : CStr) (s : State) (hparse : W.parser_ok) :
    (process_sign_psbt W buf s).ub = s.ub := by
  unfold process_sign_psbt
  cases hp : W.wally_psbt_from_base64 buf with
  | none => simp [show_err]
  | some p =>
    obtain ⟨e, he⟩ := show_psbt_effect W p { s with psbt := some p } (hparse buf p hp)
    simp only [he]
    split_ifs <;> simp [emit]

theorem example_world_parser_ok (mask : Int) (can_sign : Bool) :
    (example_world mask can_sign).parser_ok := by
  intro b p h
  simp only [example_world] at h
  split_ifs at h <;> simp at h <;> subst h <;> decide

/-! ## Holding and releasing a proposal: claims C6 and C7 -/

/-- C6.  After `process_data` handles a `SIGN_PSBT` payload (libwally's parser
keeping its contract), the execution is a defined one and a proposal is held
exactly when the payload parsed and `show_psbt` returned 0 on the parsed
proposal; the proposal held is then the parsed one.  On a parse failure and on
a review failure none is held.  The result does not depend on the proposal held
before. -/
theorem C6_held_iff_parsed_and_reviewed (W : World) (buf : CStr) (s : State)
    (hparse : W.parser_ok) :
    (process_data W SIGN_PSBT buf s).ub = s.ub
    ∧ (process_data W SIGN_PSBT buf s).psbt =
        (match W.wally_psbt_from_base64 buf with
         | none => none
         | some p =>
           if (show_psbt W p { s with psbt := some p }).1 = 0 then some p else none)
    ∧ ∀ held, (process_data W SIGN_PSBT buf { s with psbt := held }).psbt
        = (process_data W SIGN_PSBT buf s).psbt := by
  refine ⟨?_, ?_, ?_⟩
  · rw [process_data_sign]; exact process_sign_psbt_ub W buf s hparse
  · rw [process_data_sign]; exact process_sign_psbt_held W buf s
  · intro held
    rw [process_data_sign, process_data_sign, process_sign_psbt_held, process_sign_psbt_held]

/-- C6 (witness).  While `psbt_fee_1000` is held: the payload `psbt1` parses and
passes the review, so the newly parsed proposal is held; the payload `psbt3`
parses to a proposal without prevout, and an unknown payload does not parse: no
proposal is held after either. -/
theorem C6_held_iff_parsed_and_reviewed_witness :
    (process_data (example_world 0 true) SIGN_PSBT "psbt1".toList reviewing_state).psbt
      = some psbt_fee_1000
    ∧ (process_data (example_world 0 true) SIGN_PSBT "psbt3".toList reviewing_state).psbt
      = none
    ∧ (process_data (example_world 0 true) SIGN_PSBT "junk".toList reviewing_state).psbt
      = none := by
  have h1 := (C6_held_iff_parsed_and_reviewed (example_world 0 true) "psbt1".toList
    reviewing_state (example_world_parser_ok 0 true)).2.1
  have h3 := (C6_held_iff_parsed_and_reviewed (example_world 0 true) "psbt3".toList
    reviewing_state (example_world_parser_ok 0 true)).2.1
  have h0 := (C6_held_iff_parsed_and_reviewed (example_world 0 true) "junk".toList
    reviewing_state (example_world_parser_ok 0 true)).2.1
  exact ⟨h1.trans (by decide), h3.trans (by decide), h0.trans (by decide)⟩

/-- C7 (counterexample).  In the reviewing state, after `process_action` handles
the back action, the signing confirmation with a keystore that signs, or the
signing confirmation with a keystore that fails to sign, the proposal is still
held. -/
theorem C7_counterexample :
    reviewing_state.psbt = some psbt_fee_1000
    ∧ (process_action (example_world 0 true) (example_tick gui_action.GUI_BACK [])
        gui_action.GUI_BACK reviewing_state).psbt = some psbt_fee_1000
    ∧ (process_action (example_world 0 true) (example_tick gui_action.GUI_PSBT_CONFIRMED [])
        gui_action.GUI_PSBT_CONFIRMED reviewing_state).psbt = some psbt_fee_1000
    ∧ (process_action (example_world 0 false) (example_tick gui_action.GUI_PSBT_CONFIRMED [])
        gui_action.GUI_PSBT_CONFIRMED reviewing_state).psbt = some psbt_fee_1000 := by
  decide

/-- C7 (amended).  None of the three exits of the reviewing state releases the
held proposal: after `process_action` handles `GUI_PSBT_CONFIRMED` (whether the
keystore signs or fails to sign) or `GUI_BACK`, the proposal held is the one
held before.  It is released when the next `SIGN_PSBT` payload is processed:
whatever was held, what is held afterwards is decided by that payload alone. -/
theorem C7_exits_keep_proposal (W : World) (inp : TickInput) (s : State) :
    (process_action W inp gui_action.GUI_PSBT_CONFIRMED s).psbt = s.psbt
    ∧ (process_action W inp gui_action.GUI_BACK s).psbt = s.psbt
    ∧ ∀ buf, W.wally_psbt_from_base64 buf = none →
        (process_data W SIGN_PSBT buf s).psbt = none := by
  refine ⟨?_, rfl, ?_⟩
  · simp only [process_action]
    split <;> rfl
  · intro buf hb
    rw [process_data_sign, process_sign_psbt_held, hb]

/-! ## Lemmas on the tick -/

theorem pd_calls_append (t u : List Event) : pd_calls (t ++ u) = pd_calls t ++ pd_calls u := by
  induction t with
  | nil => rfl
  | cons e t ih => cases e <;> simp [pd_calls, ih]

theorem pd_calls_emit (e : Event) (s : State) :
    pd_calls (emit e s).trace = pd_calls s.trace ++ pd_calls [e] := by
  simp [emit, pd_calls_append]

theorem pd_calls_show_err (msg : String) (s : State) :
    pd_calls (show_err msg s).trace = pd_calls s.trace := by
  simp [show_err, pd_calls_append, pd_calls]

theorem show_psbt_quiet (W : World) (p : wally_psbt) (s : State) :
    pd_calls (show_psbt W p s).2.trace = pd_calls s.trace := by
  by_cases hc : W.keystore_check_psbt s.keystore p = 0
  · cases h1 : sum_inputs p.inputs 0 with
    | none => simp [show_psbt, hc, h1, pd_calls_show_err]
    | some v =>
      by_cases hlt : p.num_outputs < p.tx.num_outputs
      · simp [show_psbt, hc, h1, hlt]
      · simp [show_psbt, hc, h1, hlt, pd_calls_emit, pd_calls]
  · obtain ⟨msg, hs, _⟩ := show_psbt_reject W p s hc
    rw [hs]
    exact pd_calls_show_err msg s

theorem derive_and_show_quiet (W : World) (buf derivation : CStr) (s : State) :
    pd_calls (derive_and_show W buf derivation s).trace = pd_calls s.trace := by
  unfold derive_and_show
  split
  · simp [pd_calls_show_err, pd_calls_emit, pd_calls]
  · split <;> simp [pd_calls_show_err, pd_calls_emit, pd_calls]

theorem process_verify_address_quiet (W : World) (buf : CStr) (s : State) :
    pd_calls (process_verify_address W buf s).trace = pd_calls s.trace := by
  simp only [process_verify_address]
  repeat' split
  all_goals first
    | rfl
    | exact pd_calls_show_err _ _
    | exact derive_and_show_quiet _ _ _ _

theorem process_sign_psbt_quiet (W : World) (buf : CStr) (s : State) :
    pd_calls (process_sign_psbt W buf s).trace = pd_calls s.trace := by
  simp only [process_sign_psbt]
  split
  · exact pd_calls_show_err _ _
  · have h := show_psbt_quiet W ‹wally_psbt› { s with psbt := some ‹wally_psbt› }
    split_ifs <;> simpa using h

theorem process_data_quiet (W : World) (action : Int) (buf : CStr) (s : State) :
    pd_calls (process_data W action buf s).trace = pd_calls s.trace := by
  unfold process_data
  split_ifs
  · exact process_verify_address_quiet W buf s
  · exact process_sign_psbt_quiet W buf s
  · rfl

theorem set_default_xpubs_quiet (s : State) :
    pd_calls (set_default_xpubs s).trace = pd_calls s.trace
    ∧ (set_default_xpubs s).in_action = s.in_action := by
  simp only [set_default_xpubs]
  split_ifs <;> simp [pd_calls_append, pd_calls, emit]

theorem process_action_quiet (W : World) (inp : TickInput) (a : gui_action) (s : State) :
    pd_calls (process_action W inp a s).trace = pd_calls s.trace := by
  cases a
  case GUI_PROCESS_NETWORK =>
    simp only [process_action]
    split_ifs
    · exact (set_default_xpubs_quiet _).1.trans (by simp [pd_calls_emit, pd_calls])
    · rw [pd_calls_emit, (set_default_xpubs_quiet _).1]
      simp [pd_calls_emit, pd_calls]
    · exact pd_calls_show_err _ _
  case GUI_PSBT_CONFIRMED =>
    simp only [process_action]
    split <;> simp [pd_calls_show_err, pd_calls_emit, pd_calls]
  case GUI_PROCESS_MNEMONIC =>
    simp only [process_action]
    split_ifs <;> simp [pd_calls_show_err, pd_calls_emit, pd_calls]
  all_goals simp [process_action, generate_mnemonic, pd_calls_show_err, pd_calls_append,
    pd_calls, emit]

theorem process_action_in_action (W : World) (inp : TickInput) (a : gui_action) (s : State) :
    (process_action W inp a s).in_action
      = if a = gui_action.GUI_VERIFY_ADDRESS then VERIFY_ADDRESS
        else if a = gui_action.GUI_SIGN_PSBT then SIGN_PSBT
        else s.in_action := by
  cases a
  case GUI_PROCESS_NETWORK =>
    simp only [process_action, reduceCtorEq, if_false]
    split_ifs
    · exact (set_default_xpubs_quiet _).2
    · exact (set_default_xpubs_quiet _).2
    · rfl
  case GUI_PSBT_CONFIRMED =>
    simp only [process_action, reduceCtorEq, if_false]
    split <;> rfl
  case GUI_PROCESS_MNEMONIC =>
    simp only [process_action, reduceCtorEq, if_false]
    split_ifs <;> rfl
  all_goals simp [process_action, generate_mnemonic, emit, show_err]

theorem update_gui_calls (W : World) (inp : TickInput) (s : State) :
    pd_calls (update_gui W inp s).trace = pd_calls s.trace := by
  simp only [update_gui]
  split_ifs
  · exact process_action_quiet W inp _ s
  · rw [pd_calls_emit, process_action_quiet]
    simp [pd_calls]
  · rfl

theorem update_gui_in_action (W : World) (inp : TickInput) (s : State) :
    (update_gui W inp s).in_action = armed_kind inp s := by
  have key : (update_gui W inp s).in_action
      = if inp.action ≠ gui_action.GUI_NO_ACTION then
          (process_action W inp inp.action s).in_action
        else s.in_action := by
    simp only [update_gui]
    split_ifs <;> rfl
  rw [key, process_action_in_action]
  unfold armed_kind
  split_ifs <;> simp_all

theorem update_host_idle (W : World) (inp : TickInput) (s : State)
    (h : ¬ (s.in_action ≠ NO_ACTION ∧ 0 < inp.host_len)) : update_host W inp s = s := by
  simp only [update_host]
  split_ifs with h1 h2
  · exact absurd ⟨h1, h2⟩ h
  · exact absurd ⟨h1, h2⟩ h
  · rfl
  · rfl

theorem update_host_serves (W : World) (inp : TickInput) (s : State)
    (h1 : s.in_action ≠ NO_ACTION) (h2 : 0 < inp.host_len)
    (hub : (update_host W inp s).ub = false) :
    pd_calls (update_host W inp s).trace = pd_calls s.trace ++ [(s.in_action, inp.host_buf)]
    ∧ (update_host W inp s).in_action = NO_ACTION := by
  simp only [update_host] at hub ⊢
  rw [if_pos h1, if_pos h2] at hub ⊢
  split_ifs at hub ⊢ with h3
  · rw [h3] at hub; cases hub
  · refine ⟨?_, rfl⟩
    show pd_calls (emit Event.host_flush _).trace = _
    rw [pd_calls_emit, process_data_quiet, pd_calls_emit]
    simp [pd_calls, emit]

theorem update_button_spec (inp : TickInput) (s : State) :
    pd_calls (update_button inp s).trace = pd_calls s.trace
    ∧ (update_button inp s).in_action = s.in_action
    ∧ (update_button inp s).ub = s.ub := by
  simp only [update_button]
  split_ifs <;> simp [emit, pd_calls_append, pd_calls]

theorem armed_kind_range (inp : TickInput) (s : State)
    (hinv : s.in_action = NO_ACTION ∨ s.in_action = VERIFY_ADDRESS ∨ s.in_action = SIGN_PSBT) :
    armed_kind inp s = NO_ACTION ∨ armed_kind inp s = VERIFY_ADDRESS
      ∨ armed_kind inp s = SIGN_PSBT := by
  unfold armed_kind
  split_ifs
  · exact Or.inr (Or.inl rfl)
  · exact Or.inr (Or.inr rfl)
  · exact hinv

/-! ## The dispatcher: claim C10 -/

/-- C10.  In a tick of `update` that starts with `in_action` one of the three
request kinds and is a defined execution, at most one host payload is passed to
`process_data`.  When one is passed, it is the host buffer, host data is
available, it is processed under the armed kind, which is `VERIFY_ADDRESS` or
`SIGN_PSBT`, and the tick ends with `in_action = NO_ACTION`.  `in_action` is
again one of the three kinds after the tick.  In a tick that starts unarmed and
whose display action arms no kind, no payload is passed to `process_data`. -/
theorem C10_single_slot_dispatch (W : World) (inp : TickInput) (s : State)
    (hinv : s.in_action = NO_ACTION ∨ s.in_action = VERIFY_ADDRESS ∨ s.in_action = SIGN_PSBT)
    (hub : (update W inp s).ub = false) :
    (pd_calls (update W inp s).trace = pd_calls s.trace
      ∨ (pd_calls (update W inp s).trace
            = pd_calls s.trace ++ [(armed_kind inp s, inp.host_buf)]
          ∧ (armed_kind inp s = VERIFY_ADDRESS ∨ armed_kind inp s = SIGN_PSBT)
          ∧ 0 < inp.host_len
          ∧ (update W inp s).in_action = NO_ACTION))
    ∧ ((update W inp s).in_action = NO_ACTION ∨ (update W inp s).in_action = VERIFY_ADDRESS
        ∨ (update W inp s).in_action = SIGN_PSBT)
    ∧ (s.in_action = NO_ACTION → inp.action ≠ gui_action.GUI_VERIFY_ADDRESS →
        inp.action ≠ gui_action.GUI_SIGN_PSBT →
        pd_calls (update W inp s).trace = pd_calls s.trace) := by
  have hc1 := update_gui_calls W inp s
  have hi1 := update_gui_in_action W inp s
  have harm := armed_kind_range inp s hinv
  by_cases h0 : s.halted ∨ s.ub
  · have hu : update W inp s = s := by simp only [update]; rw [if_pos h0]
    rw [hu]
    exact ⟨Or.inl rfl, hinv, fun _ _ _ => rfl⟩
  by_cases h1 : (update_gui W inp s).halted ∨ (update_gui W inp s).ub
  · have hu : update W inp s = update_gui W inp s := by
      simp only [update]; rw [if_neg h0, if_pos h1]
    rw [hu, hc1, hi1]
    exact ⟨Or.inl rfl, harm, fun _ _ _ => rfl⟩
  have hu : update W inp s
      = if (update_host W inp (update_gui W inp s)).ub then
          update_host W inp (update_gui W inp s)
        else update_button inp (update_host W inp (update_gui W inp s)) := by
    simp only [update]; rw [if_neg h0, if_neg h1]
  have hub2 : (update_host W inp (update_gui W inp s)).ub = false := by
    cases hb : (update_host W inp (update_gui W inp s)).ub with
    | false => rfl
    | true =>
      rw [hu] at hub
      simp only [hb, if_true] at hub
      exact hub
  have hu2 : update W inp s = update_button inp (update_host W inp (update_gui W inp s)) := by
    rw [hu]; simp [hub2]
  obtain ⟨hb1, hb2, _⟩ := update_button_spec inp (update_host W inp (update_gui W inp s))
  rw [hu2, hb1, hb2]
  by_cases h2 : (update_gui W inp s).in_action ≠ NO_ACTION ∧ 0 < inp.host_len
  · obtain ⟨hs1, hs2⟩ := update_host_serves W inp (update_gui W inp s) h2.1 h2.2 hub2
    rw [hs1, hs2, hc1, hi1]
    have hne : armed_kind inp s ≠ NO_ACTION := by rw [← hi1]; exact h2.1
    refine ⟨Or.inr ⟨rfl, ?_, h2.2, rfl⟩, Or.inl rfl, ?_⟩
    · rcases harm with h | h
      · exact absurd h hne
      · exact h
    · intro hs hv hp
      exfalso
      apply hne
      simp [armed_kind, hv, hp, hs]
  · rw [update_host_idle W inp (update_gui W inp s) h2, hc1, hi1]
    exact ⟨Or.inl rfl, harm, fun _ _ _ => rfl⟩

/-- C10 (witness).  Three ticks from the start state: the operator arms address
verification, the host payload arrives, a second payload arrives.  The first
payload is processed under `VERIFY_ADDRESS` and unarms the dispatcher; the
second one is not processed. -/
theorem C10_single_slot_dispatch_witness :
    pd_calls (update (example_world 0 true)
        (example_tick gui_action.GUI_NO_ACTION "abcdef12/84h/1h/0h/0/5".toList)
        (update (example_world 0 true)
          (example_tick gui_action.GUI_VERIFY_ADDRESS []) example_state)).trace
      = [(VERIFY_ADDRESS, "abcdef12/84h/1h/0h/0/5".toList)]
    ∧ (update (example_world 0 true)
        (example_tick gui_action.GUI_NO_ACTION "abcdef12/84h/1h/0h/0/5".toList)
        (update (example_world 0 true)
          (example_tick gui_action.GUI_VERIFY_ADDRESS []) example_state)).in_action
      = NO_ACTION
    ∧ pd_calls (update (example_world 0 true)
        (example_tick gui_action.GUI_NO_ACTION "m/0".toList)
        (update (example_world 0 true)
          (example_tick gui_action.GUI_NO_ACTION "abcdef12/84h/1h/0h/0/5".toList)
          (update (example_world 0 true)
            (example_tick gui_action.GUI_VERIFY_ADDRESS []) example_state))).trace
      = [(VERIFY_ADDRESS, "abcdef12/84h/1h/0h/0/5".toList)] := by
  have h := C10_single_slot_dispatch (example_world 0 true)
    (example_tick gui_action.GUI_NO_ACTION "m/0".toList)
    (update (example_world 0 true)
      (example_tick gui_action.GUI_NO_ACTION "abcdef12/84h/1h/0h/0/5".toList)
      (update (example_world 0 true)
        (example_tick gui_action.GUI_VERIFY_ADDRESS []) example_state))
    (by decide) (by decide)
  refine ⟨by decide, by decide, ?_⟩
  rw [h.2.2 (by decide) (by decide) (by decide)]
  decide

end Specter
